import Mathlib

/-!
Verification development for the n8n workflow scraper
(src/n8n_workflow_scraper_expanded.py, class N8NComprehensiveWorkflowScraper).

The Python source is shallowly embedded: pure helpers become Lean functions
over Lists/Strings, the DOM signals consumed by each method become explicit
record fields (the result of the corresponding query_selector calls), the
filesystem becomes an explicit record threaded through the download protocol,
and the pagination while-loop becomes a fuel-indexed structural recursion
(with the fuel proved irrelevant beyond the loop's own hard bound).
-/

/-! ## Configuration constants (class attributes of the scraper) -/

def MIN_NODES : Nat := 6

def DOWNLOAD_BATCH_SIZE : Nat := 15

def MAX_WORKFLOWS_PER_SUBCATEGORY : Nat := 150

def BASE_URL : String := "https://n8n.io/workflows/"

/-! ## Python string / regex helpers used by the scraper.

These model the exact regular expressions and string operations appearing in
the source: substring containment (the Python in operator), str.strip,
str.lower, and the leftmost-match semantics of re.search / re.findall for
the concrete patterns used by the scraper.
-/

def pyIsSpace (c : Char) : Bool :=
  c = ' ' || c = '\t' || c = '\n' || c = '\x0d' || c = '\x0c' || c = '\x0b'

/-- Python str.strip with no arguments: drop whitespace at both ends. -/
def pyStrip (s : String) : String :=
  String.mk (((s.data.dropWhile pyIsSpace).reverse.dropWhile pyIsSpace).reverse)

/-- Python str.lower, restricted to ASCII letters (the only case the scraper
relies on: matching the words free, node, nodo and the slug ai). -/
def pyLower (s : String) : String :=
  String.mk (s.data.map Char.toLower)

def subAt (p : List Char) : List Char → Bool
  | [] => p.isEmpty
  | c :: rest => p.isPrefixOf (c :: rest) || subAt p rest

/-- Python substring containment: pat in s. -/
def containsSub (s pat : String) : Bool :=
  subAt pat.data s.data

def leadDigits (l : List Char) : List Char :=
  l.takeWhile Char.isDigit

def afterDigits (l : List Char) : List Char :=
  l.dropWhile Char.isDigit

/-- Numeric value of a digit string, as Python int() of a decimal literal. -/
def natOfDigits (l : List Char) : Nat :=
  l.foldl (fun a c => a * 10 + (c.toNat - 48)) 0

/-- Leftmost match of the regex plus-digits (backslash plus, capture of
one-or-more digits) as used by re.search / re.findall in the source; returns
the captured number of the first match. -/
def findPlusAux : List Char → Option Nat
  | [] => none
  | '+' :: rest =>
      if (leadDigits rest).isEmpty then findPlusAux rest
      else some (natOfDigits (leadDigits rest))
  | _ :: rest => findPlusAux rest

def findPlus (s : String) : Option Nat :=
  findPlusAux s.data

/-- Try to match digits, optional whitespace, then the given literal word at
the head of the character list (the regex digits-whitespace-word used by
the tier-3 node-count fallback; the optional trailing s of nodes? never
affects whether a match exists). -/
def nodeWordAt (word : List Char) (l : List Char) : Option Nat :=
  let ds := leadDigits l
  if ds.isEmpty then none
  else
    let rest := (afterDigits l).dropWhile pyIsSpace
    if word.isPrefixOf rest then some (natOfDigits ds) else none

/-- Leftmost match of the tier-3 pattern over the entry text. -/
def findNodeWord (word : List Char) : List Char → Option Nat
  | [] => none
  | c :: rest =>
      match nodeWordAt word (c :: rest) with
      | some n => some n
      | none => findNodeWord word rest

/-- The literal characters of the path marker /workflows/ that every regex of
the extractor anchors on. -/
def wfMarker : List Char :=
  ("/workflows/").data

/-- Does the regex /workflows/ followed by one-or-more digits match at this
position? -/
def wfNumAt (l : List Char) : Bool :=
  wfMarker.isPrefixOf l && !(leadDigits (l.drop wfMarker.length)).isEmpty

def wfNumSearch : List Char → Bool
  | [] => false
  | c :: rest => wfNumAt (c :: rest) || wfNumSearch rest

/-- re.search of /workflows/ digits on an href (used by the extractor to
discard category links). -/
def hasWorkflowNum (href : String) : Bool :=
  wfNumSearch href.data

/-- Try the slug regex /workflows/(digits-hyphen-nonSlash+) at this position;
on success return the captured group. -/
def slugMatchAt (l : List Char) : Option (List Char) :=
  if wfMarker.isPrefixOf l then
    let r := l.drop wfMarker.length
    let ds := leadDigits r
    if ds.isEmpty then none
    else
      match afterDigits r with
      | '-' :: rest =>
          let seg := rest.takeWhile (fun c => c ≠ '/')
          if seg.isEmpty then none else some (ds ++ '-' :: seg)
      | _ => none
  else none

def slugSearch : List Char → Option (List Char)
  | [] => none
  | c :: rest =>
      match slugMatchAt (c :: rest) with
      | some g => some g
      | none => slugSearch rest

/-- Leftmost match of re.search on the slug pattern, returning group 1. -/
def slugOf (href : String) : Option String :=
  (slugSearch href.data).map String.mk

/-- urljoin(BASE_URL, href) for the href shapes the site serves: an absolute
URL is kept, an absolute path is resolved against the host, a relative path
against BASE_URL. -/
def urljoinBase (href : String) : String :=
  if containsSub href ("://") then href
  else if href.startsWith ("/") then ("https://n8n.io") ++ href
  else BASE_URL ++ href

/-! ## The Page Extractor (extract_workflow_links)

An Entry is one element matched by one of the workflow selectors, carrying
the results of exactly the queries the method performs on it: its href
attribute, the inner text of the first title-like sub-element, the node-list
container (a ul) with its tooltip-bearing li count and the texts of its
li span elements, the element's full inner text, and the inner texts of the
elements matched by the price and free selector lists.
-/

structure NodeList where
  visibleCount : Nat
  spanTexts : List String
deriving DecidableEq

structure Entry where
  href : Option String
  titleText : Option String
  nodeList : Option NodeList
  fullText : String
  priceTexts : List String
  freeTexts : List String
deriving DecidableEq

structure Candidate where
  title : String
  slug : String
  url : String
  nodes : Nat
  category : String
  has_price : Bool
  is_free : Bool
deriving DecidableEq

/-- Tier 1 (method 1): visible tooltip nodes plus the first +N overflow
indicator among the li span texts of the node list; 0 when no ul. -/
def overflowOfSpans : List String → Nat
  | [] => 0
  | t :: rest =>
      match findPlus t with
      | some n => n
      | none => overflowOfSpans rest

def tier1Value (e : Entry) : Nat :=
  match e.nodeList with
  | some nl => nl.visibleCount + overflowOfSpans nl.spanTexts
  | none => 0

/-- Tier 2 (method 2): the first +N pattern anywhere in the element's inner
text, used alone. -/
def tier2Value (e : Entry) : Nat :=
  match findPlus e.fullText with
  | some n => n
  | none => 0

/-- Tier 3 (method 3): the first digits-nodes / digits-nodos pattern in the
lowercased element text, patterns tried in order. -/
def tier3Value (e : Entry) : Nat :=
  let lt := (pyLower e.fullText).data
  match findNodeWord (("node").data) lt with
  | some n => n
  | none =>
      match findNodeWord (("nodo").data) lt with
      | some n => n
      | none => 0

/-- nodes_count as computed by extract_workflow_links: each tier is
consulted only while the count is still zero. -/
def nodesCount (e : Entry) : Nat :=
  let n1 := tier1Value e
  let n2 := if n1 = 0 then tier2Value e else n1
  if n2 = 0 then tier3Value e else n2

def containsCurrency (t : String) : Bool :=
  containsSub t ("$") || containsSub t ("€") || containsSub t ("£")

/-- has_price: some element matched by the price selectors has a currency
symbol in its text (the loop breaks at the first, which does not change the
resulting flag). -/
def hasPriceFlag (e : Entry) : Bool :=
  e.priceTexts.any containsCurrency

/-- is_free: some element matched by the free selectors contains the word
free after strip().lower(). -/
def isFreeFlag (e : Entry) : Bool :=
  e.freeTexts.any (fun t => containsSub (pyLower (pyStrip t)) ("free"))

/-- The href filter of the extractor: a workflow link, not a category link,
with a numeric id in the path. -/
def isWorkflowHref (href : String) : Bool :=
  containsSub href ("/workflows/") &&
  !(containsSub href ("/workflows/categories/")) &&
  hasWorkflowNum href

/-- The workflow_data dict built for one processed entry; curLen is
len(workflows) at that moment (used by the synthetic slug fallback). -/
def candidateOf (cat : String) (curLen : Nat) (h : String) (e : Entry) : Candidate :=
  { title :=
      match e.titleText with
      | some t => pyStrip t
      | none => "Unknown Title"
  , slug :=
      match slugOf h with
      | some s => s
      | none => ("workflow-") ++ toString curLen
  , url := urljoinBase h
  , nodes := nodesCount e
  , category := cat
  , has_price := hasPriceFlag e
  , is_free := isFreeFlag e }

/-- The combined acceptance filters of the extractor (minus the dedup check
against the already collected list). -/
def passesFilters (c : Candidate) : Bool :=
  decide (0 < c.nodes) && decide (MIN_NODES ≤ c.nodes) && !c.has_price && c.is_free

/-- Processing of a single matched element inside extract_workflow_links. -/
def processEntry (cat : String) (ws : List Candidate) (e : Entry) : List Candidate :=
  match e.href with
  | none => ws
  | some h =>
      if isWorkflowHref h = true then
        let c := candidateOf cat ws.length h e
        if passesFilters c = true ∧ c ∉ ws then ws ++ [c] else ws
      else ws

/-- extract_workflow_links: fold the per-element processing over all elements
matched by the workflow selectors, in selector-major document order. -/
def extract_workflow_links (cat : String) (entries : List Entry) : List Candidate :=
  List.foldl (processEntry cat) [] entries

/-! ## JSON payloads (json.loads / json.dump of the download step)

JVal models the Python values json.loads can return; numbers are kept as
their lexemes (CPython re-renders floats, so serialization of non-canonical
numerals like 1e2 differs; every concrete payload used below is canonical).
The parser follows the strict json.loads grammar (plus the NaN/Infinity
constants CPython accepts); the serializer follows json.dump with indent=2
and ensure_ascii=False. Both recurse on an explicit fuel so that they reduce
inside the kernel; the fuel bounds are generous for their inputs.
-/

mutual
inductive JVal where
  | jnull
  | jbool (b : Bool)
  | jnum (lexeme : String)
  | jstr (s : String)
  | jarr (xs : JItems)
  | jobj (kvs : JPairs)
inductive JItems where
  | nil
  | cons (v : JVal) (rest : JItems)
inductive JPairs where
  | nil
  | cons (k : String) (v : JVal) (rest : JPairs)
end

def lbrace : Char := Char.ofNat 123

def rbrace : Char := Char.ofNat 125

def skipWs : List Char → List Char
  | [] => []
  | c :: rest =>
      if c = ' ' ∨ c = '\t' ∨ c = '\n' ∨ c = Char.ofNat 13 then skipWs rest
      else c :: rest

def hexVal (c : Char) : Option Nat :=
  if c.isDigit then some (c.toNat - 48)
  else if 'a' ≤ c ∧ c ≤ 'f' then some (c.toNat - 87)
  else if 'A' ≤ c ∧ c ≤ 'F' then some (c.toNat - 55)
  else none

/-- JSON string body parser: characters until the closing quote, with the
standard escapes (a lone unicode escape becomes its code point; surrogate
pairs are not recombined, which no payload below exercises). -/
def parseJStr : Nat → List Char → Option (List Char × List Char)
  | 0, _ => none
  | _ + 1, [] => none
  | f + 1, c :: rest =>
      if c = '"' then some ([], rest)
      else if c = '\\' then
        match rest with
        | [] => none
        | e :: rest2 =>
            if e = '"' then (parseJStr f rest2).map (fun p => ('"' :: p.1, p.2))
            else if e = '\\' then (parseJStr f rest2).map (fun p => ('\\' :: p.1, p.2))
            else if e = '/' then (parseJStr f rest2).map (fun p => ('/' :: p.1, p.2))
            else if e = 'b' then (parseJStr f rest2).map (fun p => (Char.ofNat 8 :: p.1, p.2))
            else if e = 'f' then (parseJStr f rest2).map (fun p => (Char.ofNat 12 :: p.1, p.2))
            else if e = 'n' then (parseJStr f rest2).map (fun p => ('\n' :: p.1, p.2))
            else if e = 'r' then (parseJStr f rest2).map (fun p => (Char.ofNat 13 :: p.1, p.2))
            else if e = 't' then (parseJStr f rest2).map (fun p => ('\t' :: p.1, p.2))
            else if e = 'u' then
              match rest2 with
              | a :: b :: c3 :: d :: rest3 =>
                  match hexVal a, hexVal b, hexVal c3, hexVal d with
                  | some x1, some x2, some x3, some x4 =>
                      (parseJStr f rest3).map
                        (fun p => (Char.ofNat (((x1 * 16 + x2) * 16 + x3) * 16 + x4) :: p.1, p.2))
                  | _, _, _, _ => none
              | _ => none
            else none
      else if c.toNat < 32 then none
      else (parseJStr f rest).map (fun p => (c :: p.1, p.2))

/-- Integer part of the strict JSON number grammar: 0, or a nonzero digit
followed by digits. -/
def parseIntDigits : List Char → Option (List Char × List Char)
  | '0' :: rest => some (['0'], rest)
  | c :: rest => if c.isDigit then some (c :: leadDigits rest, afterDigits rest) else none
  | [] => none

def parseFracPart : List Char → Option (List Char × List Char)
  | '.' :: rest =>
      let ds := leadDigits rest
      if ds.isEmpty then none else some ('.' :: ds, afterDigits rest)
  | l => some ([], l)

def parseExpPart : List Char → Option (List Char × List Char)
  | [] => some ([], [])
  | c :: rest =>
      if c = 'e' ∨ c = 'E' then
        match rest with
        | [] => none
        | s :: rest2 =>
            if s = '+' ∨ s = '-' then
              let ds := leadDigits rest2
              if ds.isEmpty then none else some (c :: s :: ds, afterDigits rest2)
            else
              let ds := leadDigits rest
              if ds.isEmpty then none else some (c :: ds, afterDigits rest)
      else some ([], c :: rest)

def parseNumTail (l : List Char) : Option (List Char × List Char) :=
  match parseIntDigits l with
  | none => none
  | some (ds, r1) =>
      match parseFracPart r1 with
      | none => none
      | some (fs, r2) =>
          match parseExpPart r2 with
          | none => none
          | some (es, r3) => some (ds ++ fs ++ es, r3)

def parseNumAt : List Char → Option (List Char × List Char)
  | '-' :: rest => (parseNumTail rest).map (fun p => ('-' :: p.1, p.2))
  | l => parseNumTail l

inductive PMode where
  | pval
  | parrItems
  | pobjItems

inductive PRes where
  | rval (v : JVal)
  | rarr (xs : JItems)
  | robj (kvs : JPairs)

/-- Recursive-descent core of json.loads. The three modes parse one value,
the items of a non-empty array after its bracket, and the members of a
non-empty object after its brace. -/
def parseCore : Nat → PMode → List Char → Option (PRes × List Char)
  | 0, _, _ => none
  | f + 1, PMode.pval, l =>
      match skipWs l with
      | 'n' :: 'u' :: 'l' :: 'l' :: r => some (PRes.rval JVal.jnull, r)
      | 't' :: 'r' :: 'u' :: 'e' :: r => some (PRes.rval (JVal.jbool true), r)
      | 'f' :: 'a' :: 'l' :: 's' :: 'e' :: r => some (PRes.rval (JVal.jbool false), r)
      | 'N' :: 'a' :: 'N' :: r => some (PRes.rval (JVal.jnum ("NaN")), r)
      | 'I' :: 'n' :: 'f' :: 'i' :: 'n' :: 'i' :: 't' :: 'y' :: r =>
          some (PRes.rval (JVal.jnum ("Infinity")), r)
      | '"' :: r =>
          (match parseJStr (r.length + 1) r with
           | some (cs, r2) => some (PRes.rval (JVal.jstr (String.mk cs)), r2)
           | none => none)
      | '[' :: r =>
          (match skipWs r with
           | ']' :: r2 => some (PRes.rval (JVal.jarr JItems.nil), r2)
           | l2 =>
               match parseCore f PMode.parrItems l2 with
               | some (PRes.rarr xs, r2) => some (PRes.rval (JVal.jarr xs), r2)
               | _ => none)
      | '-' :: r =>
          if (("Infinity").data).isPrefixOf r then
            some (PRes.rval (JVal.jnum ("-Infinity")), r.drop 8)
          else
            (match parseNumAt ('-' :: r) with
             | some (ds, r2) => some (PRes.rval (JVal.jnum (String.mk ds)), r2)
             | none => none)
      | c :: r =>
          if c = lbrace then
            match skipWs r with
            | [] => none
            | c2 :: r2 =>
                if c2 = rbrace then some (PRes.rval (JVal.jobj JPairs.nil), r2)
                else
                  match parseCore f PMode.pobjItems (c2 :: r2) with
                  | some (PRes.robj kvs, r3) => some (PRes.rval (JVal.jobj kvs), r3)
                  | _ => none
          else
            match parseNumAt (c :: r) with
            | some (ds, r2) => some (PRes.rval (JVal.jnum (String.mk ds)), r2)
            | none => none
      | [] => none
  | f + 1, PMode.parrItems, l =>
      match parseCore f PMode.pval l with
      | some (PRes.rval v, r) =>
          (match skipWs r with
           | ',' :: r2 =>
               (match parseCore f PMode.parrItems r2 with
                | some (PRes.rarr xs, r3) => some (PRes.rarr (JItems.cons v xs), r3)
                | _ => none)
           | ']' :: r2 => some (PRes.rarr (JItems.cons v JItems.nil), r2)
           | _ => none)
      | _ => none
  | f + 1, PMode.pobjItems, l =>
      match skipWs l with
      | '"' :: r =>
          (match parseJStr (r.length + 1) r with
           | some (k, r1) =>
               (match skipWs r1 with
                | ':' :: r2 =>
                    (match parseCore f PMode.pval r2 with
                     | some (PRes.rval v, r3) =>
                         (match skipWs r3 with
                          | ',' :: r4 =>
                              (match parseCore f PMode.pobjItems r4 with
                               | some (PRes.robj kvs, r5) =>
                                   some (PRes.robj (JPairs.cons (String.mk k) v kvs), r5)
                               | _ => none)
                          | c :: r4 =>
                              if c = rbrace then
                                some (PRes.robj (JPairs.cons (String.mk k) v JPairs.nil), r4)
                              else none
                          | [] => none)
                     | _ => none)
                | _ => none)
           | none => none)
      | _ => none

/-- json.loads: parse one value and require only whitespace after it. -/
def json_loads (s : String) : Option JVal :=
  match parseCore (2 * s.data.length + 4) PMode.pval s.data with
  | some (PRes.rval v, rest) => if (skipWs rest).isEmpty then some v else none
  | _ => none

def hexDigitChar (n : Nat) : Char :=
  if n < 10 then Char.ofNat (48 + n) else Char.ofNat (87 + (n - 10))

/-- Escaping of one character inside a serialized string under
ensure_ascii=False: only the quote, backslash and control characters are
escaped. -/
def escapeJChar (c : Char) : List Char :=
  if c = '"' then ['\\', '"']
  else if c = '\\' then ['\\', '\\']
  else if c = '\n' then ['\\', 'n']
  else if c = '\t' then ['\\', 't']
  else if c = Char.ofNat 13 then ['\\', 'r']
  else if c = Char.ofNat 8 then ['\\', 'b']
  else if c = Char.ofNat 12 then ['\\', 'f']
  else if c.toNat < 32 then
    ['\\', 'u', '0', '0', hexDigitChar (c.toNat / 16), hexDigitChar (c.toNat % 16)]
  else [c]

def dumpJStr (s : String) : String :=
  String.mk ('"' :: s.data.foldr (fun c acc => escapeJChar c ++ acc) ['"'])

def nspaces (n : Nat) : String :=
  String.mk (List.replicate n ' ')

mutual
/-- json.dump with indent=2: serialize one value at a nesting level. -/
def dumpVal : JVal → Nat → String
  | JVal.jnull, _ => "null"
  | JVal.jbool true, _ => "true"
  | JVal.jbool false, _ => "false"
  | JVal.jnum s, _ => s
  | JVal.jstr s, _ => dumpJStr s
  | JVal.jarr JItems.nil, _ => "[]"
  | JVal.jarr (JItems.cons x xs), lvl =>
      ("[\n") ++ nspaces (2 * (lvl + 1)) ++ dumpVal x (lvl + 1)
        ++ dumpItems xs lvl
        ++ ("\n") ++ nspaces (2 * lvl) ++ ("]")
  | JVal.jobj JPairs.nil, _ => String.mk [lbrace, rbrace]
  | JVal.jobj (JPairs.cons k v kvs), lvl =>
      String.mk [lbrace, '\n'] ++ nspaces (2 * (lvl + 1)) ++ dumpJStr k ++ (": ")
        ++ dumpVal v (lvl + 1)
        ++ dumpPairs kvs lvl
        ++ ("\n") ++ nspaces (2 * lvl) ++ String.mk [rbrace]
/-- Remaining array items, each preceded by the separator and indent. -/
def dumpItems : JItems → Nat → String
  | JItems.nil, _ => ""
  | JItems.cons x rest, lvl =>
      (",\n") ++ nspaces (2 * (lvl + 1)) ++ dumpVal x (lvl + 1) ++ dumpItems rest lvl
/-- Remaining object members, each preceded by the separator and indent. -/
def dumpPairs : JPairs → Nat → String
  | JPairs.nil, _ => ""
  | JPairs.cons k v rest, lvl =>
      (",\n") ++ nspaces (2 * (lvl + 1)) ++ dumpJStr k ++ (": ")
        ++ dumpVal v (lvl + 1) ++ dumpPairs rest lvl
end

/-- The serialization json.dump(workflow_data, f, indent=2,
ensure_ascii=False) writes. -/
def json_dumps (v : JVal) : String :=
  dumpVal v 0

/-! ## Filesystem and the per-item download protocol
(download_workflow_via_clipboard) -/

structure FS where
  dirs : List String
  files : List (String × String)
deriving DecidableEq

def FS.fileExists (fs : FS) (p : String) : Bool :=
  fs.files.any (fun q => q.1 = p)

/-- pathlib mkdir(exist_ok=True). -/
def FS.mkdirp (fs : FS) (d : String) : FS :=
  if fs.dirs.contains d then fs else { fs with dirs := d :: fs.dirs }

/-- open(path, w) followed by a full write: create or truncate-and-replace. -/
def FS.writeFile (fs : FS) (p c : String) : FS :=
  { fs with files := (p, c) :: fs.files.filter (fun q => q.1 ≠ p) }

def download_dir : String := "Workflow Scraper"

def targetDir (w : Candidate) : String :=
  download_dir ++ ("/") ++ w.category

def targetPath (w : Candidate) : String :=
  targetDir w ++ ("/") ++ w.slug ++ (".json")

/-- The page behavior one download attempt observes: whether page.goto
raises, the location after navigation, visibility of the Use-for-free and
copy controls, and the clipboard read result (none models a rejected
clipboard promise). -/
structure ItemEnv where
  gotoRaises : Bool
  landedUrl : String
  useButton : Bool
  copyButton : Bool
  clipboard : Option String
deriving DecidableEq

structure DlRes where
  success : Bool
  fs : FS
  navs : Nat
deriving DecidableEq

/-- The clipboard read-parse-write tail of the protocol: a rejected or
empty clipboard fails, unparsable JSON fails, a parsed payload is written
to the target path. -/
def dlClipboard (fs : FS) (w : Candidate) : Option String → DlRes
  | none => ⟨false, fs, 1⟩
  | some txt =>
      if txt = "" then ⟨false, fs, 1⟩
      else
        match json_loads txt with
        | none => ⟨false, fs, 1⟩
        | some v => ⟨true, fs.writeFile (targetPath w) (json_dumps v), 1⟩

/-- The steps of download_workflow_via_clipboard after the category
directory has been ensured: short circuit on an existing file, otherwise
navigate (counted in navs) and run the protocol; every failure returns
False without touching files. -/
def dlSteps (env : ItemEnv) (fs : FS) (w : Candidate) : DlRes :=
  if fs.fileExists (targetPath w) = true then ⟨true, fs, 0⟩
  else if env.gotoRaises = true then ⟨false, fs, 1⟩
  else if containsSub env.landedUrl ("n8n.io") = false then ⟨false, fs, 1⟩
  else if env.useButton = false then ⟨false, fs, 1⟩
  else if env.copyButton = false then ⟨false, fs, 1⟩
  else dlClipboard fs w env.clipboard

/-- download_workflow_via_clipboard: mkdir(exist_ok=True) on the category
directory, then the per-item protocol. -/
def download_workflow_via_clipboard (env : ItemEnv) (fs0 : FS) (w : Candidate) : DlRes :=
  dlSteps env (fs0.mkdirp (targetDir w)) w

/-! ## The Download Orchestrator (download_batch_immediately) -/

structure Ev where
  item : Nat
  tab : Nat
  success : Bool
  navs : Nat
deriving DecidableEq

/-- The per-item loop of download_batch_immediately: item i is handled on
tab i mod tabCount; envs gives each item index its page behavior; the
filesystem threads through the sequential downloads. -/
def runItems (envs : Nat → ItemEnv) (tabCount : Nat) :
    List Candidate → Nat → FS → List Ev × FS
  | [], _, fs => ([], fs)
  | w :: ws, i, fs =>
      let r := download_workflow_via_clipboard (envs i) fs w
      let rest := runItems envs tabCount ws (i + 1) r.fs
      (⟨i, i % tabCount, r.success, r.navs⟩ :: rest.1, rest.2)

structure BatchRes where
  tabsOpened : Nat
  events : List Ev
  fs : FS
deriving DecidableEq

/-- download_batch_immediately: an empty batch returns at once; otherwise
min(3, len(workflows)) tabs are opened and the items run round-robin. -/
def download_batch_immediately (envs : Nat → ItemEnv) (fs : FS)
    (ws : List Candidate) : BatchRes :=
  if ws.isEmpty then ⟨0, [], fs⟩
  else
    let n := min 3 ws.length
    let r := runItems envs n ws 0 fs
    ⟨n, r.1, r.2⟩

/-! ## The Pagination Driver (scrape_category_workflows)

The while-loop of scrape_category_workflows is embedded as a structural
recursion on a fuel argument; 31 units of fuel are exactly the depth the
loop's own hard bound (pages_loaded > 30, checked after load-more) permits
from pages_loaded = 0, and the fuel is proved irrelevant beyond that below.
The environment gives, per iteration number, the entries the rendered page
exposes and the outcome of load_more_pages. The state carries the trace of
batches handed to download_batch_immediately (flushes) and of the pending
buffer size at the start of each iteration, alongside the accumulators of
the source (all_workflows, processed_slugs, pending_downloads,
pages_loaded).
-/

structure ScrapeEnv where
  pages : Nat → List Entry
  loadMore : Nat → Bool

structure ScrapeState where
  allWorkflows : List Candidate
  processedSlugs : List String
  pending : List Candidate
  flushes : List (List Candidate)
  pageStartPendingSizes : List Nat
  pagesLoaded : Nat

def initScrape : ScrapeState :=
  ⟨[], [], [], [], [], 0⟩

/-- The inner for-loop over page_workflows: append items with unseen slugs
while under the cap, breaking out as soon as the cap is reached by an
append. -/
def addWorkflows : ScrapeState → List Candidate → ScrapeState
  | s, [] => s
  | s, w :: rest =>
      if w.slug ∉ s.processedSlugs ∧ s.allWorkflows.length < MAX_WORKFLOWS_PER_SUBCATEGORY then
        let s1 : ScrapeState :=
          { s with processedSlugs := w.slug :: s.processedSlugs
                 , allWorkflows := s.allWorkflows ++ [w]
                 , pending := s.pending ++ [w] }
        if MAX_WORKFLOWS_PER_SUBCATEGORY ≤ s1.allWorkflows.length then s1
        else addWorkflows s1 rest
      else addWorkflows s rest

/-- The head of one loop iteration: pages_loaded increments and the size
of the pending buffer entering the iteration is recorded in the trace. -/
def scrapeIterStart (s : ScrapeState) : ScrapeState :=
  { s with pagesLoaded := s.pagesLoaded + 1
         , pageStartPendingSizes := s.pageStartPendingSizes ++ [s.pending.length] }

/-- The mid-loop flush checkpoint: when the pending buffer has reached
DOWNLOAD_BATCH_SIZE it is handed to download_batch_immediately (recorded in
flushes) and cleared. -/
def scrapeFlush (s : ScrapeState) : ScrapeState :=
  if DOWNLOAD_BATCH_SIZE ≤ s.pending.length then
    { s with flushes := s.flushes ++ [s.pending], pending := [] }
  else s

/-- One-or-more iterations of the pagination while-loop: extract, collect,
break on the cap, flush a full pending buffer, try to load more, and stop
once pages_loaded exceeds 30. -/
def scrapeLoop (env : ScrapeEnv) (cat : String) : Nat → ScrapeState → ScrapeState
  | 0, s => s
  | f + 1, s =>
      let s1 := scrapeIterStart s
      let s2 := addWorkflows s1 (extract_workflow_links cat (env.pages s1.pagesLoaded))
      if MAX_WORKFLOWS_PER_SUBCATEGORY ≤ s2.allWorkflows.length then s2
      else
        let s3 := scrapeFlush s2
        if env.loadMore s3.pagesLoaded = false then s3
        else if 30 < s3.pagesLoaded then s3
        else scrapeLoop env cat f s3

/-- The final flush after the loop: any remaining pending items form one
last batch handed to download_batch_immediately. -/
def scrapeFinal (s : ScrapeState) : ScrapeState :=
  if s.pending.isEmpty = true then s
  else { s with flushes := s.flushes ++ [s.pending] }

/-- scrape_category_workflows: run the pagination loop, then hand any
remaining pending items to download_batch_immediately. -/
def scrape_category_workflows (env : ScrapeEnv) (cat : String) : ScrapeState :=
  scrapeFinal (scrapeLoop env cat 31 initScrape)

/-! ## The Catalog Model and Traversal Controller -/

structure Category where
  name : String
  slug : String
  url : String
  parent : Option String := none
deriving DecidableEq

/-- The hardcoded fallback list of main categories (AI excluded at the
source). -/
def knownCategories : List Category :=
  [ ⟨"Sales", "sales", "https://n8n.io/workflows/categories/sales/", none⟩
  , ⟨"IT Ops", "it-ops", "https://n8n.io/workflows/categories/it-ops/", none⟩
  , ⟨"Marketing", "marketing", "https://n8n.io/workflows/categories/marketing/", none⟩
  , ⟨"Document Ops", "document-ops", "https://n8n.io/workflows/categories/document-ops/", none⟩
  , ⟨"Other", "other", "https://n8n.io/workflows/categories/other/", none⟩
  , ⟨"Support", "support", "https://n8n.io/workflows/categories/support/", none⟩ ]

/-- The observable outcomes of discover_main_categories: navigation failed
on all three retries (fallback list inside the retry handler), links were
scraped from the page (then deduplicated, AI filtered out, and replaced by
the fallback list when empty), or an unexpected exception reached the outer
handler (empty result). -/
inductive DiscoveryEnv where
  | navFailedAllRetries
  | found (cats : List Category)
  | raised

def dedupKeep : List Category → List Category → List Category
  | acc, [] => acc.reverse
  | acc, c :: rest =>
      if c ∈ acc then dedupKeep acc rest else dedupKeep (c :: acc) rest

def discover_main_categories : DiscoveryEnv → List Category
  | DiscoveryEnv.navFailedAllRetries => knownCategories
  | DiscoveryEnv.raised => []
  | DiscoveryEnv.found cats =>
      let cats1 := (dedupKeep [] cats).filter (fun c => pyLower c.slug ≠ ("ai"))
      if cats1.isEmpty then knownCategories else cats1

/-- The hardcoded subcategory table of discover_subcategories. -/
def knownSubcategories (slug : String) : List (String × String) :=
  if slug = ("sales") then
    [("CRM", "crm"), ("Lead Generation", "lead-generation"), ("Lead Nurturing", "lead-nurturing")]
  else if slug = ("marketing") then
    [("Content Creation", "content-creation"), ("Market Research", "market-research"),
     ("Social Media", "social-media")]
  else if slug = ("it-ops") then
    [("SecOps", "secops"), ("Engineering", "engineering"), ("DevOps", "devops")]
  else if slug = ("document-ops") then
    [("Document Extraction", "document-extraction"), ("File Management", "file-management"),
     ("Invoice Processing", "invoice-processing")]
  else if slug = ("support") then
    [("Support Chatbot", "support-chatbot"), ("Ticket Management", "ticket-management"),
     ("Internal Wiki", "internal-wiki")]
  else if slug = ("other") then
    [("Crypto Trading", "crypto-trading"), ("HR", "hr"), ("Miscellaneous", "miscellaneous"),
     ("Personal Productivity", "personal-productivity"),
     ("Project Management", "project-management")]
  else []

def discover_subcategories (c : Category) : List Category :=
  (knownSubcategories (pyLower c.slug)).map
    (fun p => ⟨p.1, p.2, ("https://n8n.io/workflows/categories/") ++ p.2 ++ ("/"), some c.slug⟩)

/-- Environment of one whole run: the discovery outcome, a pagination
environment per (sub)category slug, and the index of the category during
whose processing an unexpected exception escapes to the outer handler
(none when no exception occurs; an index past the list means the same). -/
structure RunEnv where
  disc : DiscoveryEnv
  scrapeEnvs : String → ScrapeEnv
  raiseAtCategory : Option Nat

structure RunResult where
  statsPrinted : Bool
  categoriesExplored : Nat
  subcategoriesExplored : Nat
  totalFound : Nat

/-- The phase-2 loop over main categories: per category either its
subcategories or the category itself are scraped; an escaping exception at
a category index aborts the rest of the loop. Returns (completed without
exception, subcategories explored, workflows found). -/
def runCategories (env : RunEnv) : List Category → Nat → Bool × Nat × Nat
  | [], _ => (true, 0, 0)
  | c :: rest, i =>
      if env.raiseAtCategory = some i then (false, 0, 0)
      else
        let subs := discover_subcategories c
        let here :=
          if subs.isEmpty then
            (scrape_category_workflows (env.scrapeEnvs c.slug) c.name).allWorkflows.length
          else
            (subs.map (fun sc =>
              (scrape_category_workflows (env.scrapeEnvs sc.slug) sc.name).allWorkflows.length)).sum
        let r := runCategories env rest (i + 1)
        (r.1, subs.length + r.2.1, here + r.2.2)

/-- scrape_all_categories_comprehensively: discover categories, return early
(no statistics) when none; otherwise process all categories and print the
final statistics only when the loop ran to completion inside the try block
(print_final_statistics is its last statement; the except branch only
logs). -/
def scrape_all_categories_comprehensively (env : RunEnv) : RunResult :=
  let cats := discover_main_categories env.disc
  if cats.isEmpty then ⟨false, 0, 0, 0⟩
  else
    let r := runCategories env cats 0
    ⟨r.1, cats.length, r.2.1, r.2.2⟩

/-- The loop invariant of one (sub)category traversal: the flushed batches
followed by the pending buffer are exactly the accepted items in order; the
accepted items have pairwise distinct slugs, all recorded in
processed_slugs; the accepted count respects the cap; every recorded flush
held at least DOWNLOAD_BATCH_SIZE items; and the pending buffer held fewer
than DOWNLOAD_BATCH_SIZE items at the start of every page iteration. -/
def ScrapeInv (s : ScrapeState) : Prop :=
  s.flushes.flatten ++ s.pending = s.allWorkflows
  ∧ (s.allWorkflows.map (fun c => c.slug)).Nodup
  ∧ (∀ c ∈ s.allWorkflows, c.slug ∈ s.processedSlugs)
  ∧ s.allWorkflows.length ≤ MAX_WORKFLOWS_PER_SUBCATEGORY
  ∧ (∀ b ∈ s.flushes, DOWNLOAD_BATCH_SIZE ≤ b.length)
  ∧ (∀ m ∈ s.pageStartPendingSizes, m < DOWNLOAD_BATCH_SIZE)

/-! ## Concrete instances used by witnesses and counterexamples -/

/-- An accepted listing entry: six tooltip-bearing nodes, no price text, an
explicit Free label. -/
def entryC1 : Entry :=
  { href := some ("/workflows/123-my-flow")
  , titleText := some ("My Flow")
  , nodeList := some ⟨6, []⟩
  , fullText := "My Flow Free"
  , priceTexts := []
  , freeTexts := ["Free"] }

/-- An entry whose node list is present but empty while its full text holds
a +7 pattern: tier 1 is available yet yields 0, so the code falls through
to tier 2. -/
def entryC3cex : Entry :=
  { href := none
  , titleText := none
  , nodeList := some ⟨0, []⟩
  , fullText := "+7"
  , priceTexts := []
  , freeTexts := [] }

/-- An entry with five visible nodes and a +3 overflow span whose full text
carries the same +3 indicator. -/
def entryC3wit : Entry :=
  { href := none
  , titleText := none
  , nodeList := some ⟨5, ["+3"]⟩
  , fullText := "+3 more"
  , priceTexts := []
  , freeTexts := [] }

/-- Two distinct card elements linking the same workflow (same slug in the
href) under different title texts. -/
def entryC7a : Entry :=
  { href := some ("/workflows/123-abc")
  , titleText := some ("A")
  , nodeList := some ⟨6, []⟩
  , fullText := ""
  , priceTexts := []
  , freeTexts := ["Free"] }

def entryC7b : Entry :=
  { href := some ("/workflows/123-abc")
  , titleText := some ("B")
  , nodeList := some ⟨6, []⟩
  , fullText := ""
  , priceTexts := []
  , freeTexts := ["Free"] }

def wfC2 : Candidate :=
  ⟨"T", "123-abc", "https://n8n.io/workflows/123-abc", 6, "Sales", false, true⟩

/-- A filesystem already holding the target file of wfC2. -/
def fsC2 : FS :=
  ⟨["Workflow Scraper", "Workflow Scraper/Sales"],
   [("Workflow Scraper/Sales/123-abc.json", "[]")]⟩

/-- A page environment on which every protocol step would fail. -/
def envIdle : ItemEnv :=
  ⟨false, "https://n8n.io/workflows/123-abc", false, false, none⟩

def fsBase : FS :=
  ⟨["Workflow Scraper"], []⟩

def wfOfSlug (slug : String) : Candidate :=
  ⟨"T", slug, "u", 6, "Cat", false, true⟩

/-- A batch of seven accepted items. -/
def wsC6 : List Candidate :=
  [wfOfSlug ("s0"), wfOfSlug ("s1"), wfOfSlug ("s2"), wfOfSlug ("s3"),
   wfOfSlug ("s4"), wfOfSlug ("s5"), wfOfSlug ("s6")]

/-- Item 3 lands off-host at the navigation step; every other item runs the
full protocol successfully on a clipboard holding the empty JSON array. -/
def envsC6 : Nat → ItemEnv := fun i =>
  if i = 3 then ⟨false, ("https://example.com/offsite"), true, true, some ("[]")⟩
  else ⟨false, ("https://n8n.io/workflows/x"), true, true, some ("[]")⟩

def wfC10 : Candidate :=
  ⟨"T", "9-z", "u", 7, "Marketing", false, true⟩

/-- Navigation lands off-host: the per-item protocol fails at step 2. -/
def envC10fail : ItemEnv :=
  ⟨false, ("https://evil.example/page"), true, true, some ("[1]")⟩

/-- A fully successful protocol run whose clipboard holds the JSON number
123. -/
def envC10ok : ItemEnv :=
  ⟨false, ("https://n8n.io/workflows/9-z"), true, true, some ("123")⟩

/-- A category whose pages never yield entries and whose load-more control
never disappears: only the hard iteration bound stops the loop. -/
def envPagesForever : ScrapeEnv :=
  ⟨fun _ => [], fun _ => true⟩

/-- A run whose category discovery hits an unexpected exception: it returns
the empty list and the run exits before any statistics. -/
def runEnvRaised : RunEnv :=
  ⟨DiscoveryEnv.raised, fun _ => ⟨fun _ => [], fun _ => false⟩, none⟩

/-- A run with a live discovery result and an exception escaping while the
second category is processed. -/
def runEnvPartial : RunEnv :=
  ⟨DiscoveryEnv.navFailedAllRetries, fun _ => ⟨fun _ => [], fun _ => false⟩, some 1⟩

/-- A listing entry accepted under a numbered slug, for bulk pages. -/
def entryOfSlugNum (i : Nat) : Entry :=
  { href := some (("/workflows/") ++ toString (100 + i) ++ ("-w"))
  , titleText := some ("W")
  , nodeList := some ⟨6, []⟩
  , fullText := ""
  , priceTexts := []
  , freeTexts := ["Free"] }

def entriesC4 : List Entry :=
  (List.range 20).map entryOfSlugNum

/-- One page of twenty accepted items followed by an exhausted load-more:
the traversal flushes a single batch of twenty mid-loop. -/
def envC4 : ScrapeEnv :=
  ⟨fun k => if k = 1 then entriesC4 else [], fun k => k = 1⟩

/-- A run on the fallback categories with no escaping exception. -/
def runEnvOk : RunEnv :=
  ⟨DiscoveryEnv.navFailedAllRetries, fun _ => ⟨fun _ => [], fun _ => false⟩, none⟩

/-! ## Theorems

General lemmas about the extractor fold, then the per-claim theorems with
their witnesses and counterexamples.
-/

theorem processEntry_eq_self_or_append (cat : String) (ws : List Candidate) (e : Entry) :
    processEntry cat ws e = ws ∨
    ∃ h, e.href = some h ∧ isWorkflowHref h = true ∧
      passesFilters (candidateOf cat ws.length h e) = true ∧
      candidateOf cat ws.length h e ∉ ws ∧
      processEntry cat ws e = ws ++ [candidateOf cat ws.length h e] := by
  cases hh : e.href with
  | none => left; simp [processEntry, hh]
  | some h =>
      by_cases h1 : isWorkflowHref h = true
      · by_cases hpass : passesFilters (candidateOf cat ws.length h e) = true
        · by_cases hin : candidateOf cat ws.length h e ∈ ws
          · left; simp [processEntry, hh, h1, hpass, hin]
          · right
            exact ⟨h, rfl, h1, hpass, hin, by simp [processEntry, hh, h1, hpass, hin]⟩
        · left; simp [processEntry, hh, h1, hpass]
      · left; simp [processEntry, hh, h1]

theorem processEntry_eq_append (cat : String) (ws : List Candidate) (e : Entry) :
    ∃ t, processEntry cat ws e = ws ++ t := by
  rcases processEntry_eq_self_or_append cat ws e with h | ⟨h, _, _, _, _, heq⟩
  · exact ⟨[], by simp [h]⟩
  · exact ⟨_, heq⟩

theorem foldl_processEntry_eq_append (cat : String) (es : List Entry) :
    ∀ ws, ∃ t, List.foldl (processEntry cat) ws es = ws ++ t := by
  induction es with
  | nil => exact fun ws => ⟨[], by simp⟩
  | cons e rest ih =>
      intro ws
      obtain ⟨t1, h1⟩ := processEntry_eq_append cat ws e
      obtain ⟨t2, h2⟩ := ih (processEntry cat ws e)
      refine ⟨t1 ++ t2, ?_⟩
      rw [List.foldl_cons, h2, h1, List.append_assoc]

theorem mem_foldl_processEntry (cat : String) (es : List Entry) (ws : List Candidate)
    (c : Candidate) (hc : c ∈ ws) : c ∈ List.foldl (processEntry cat) ws es := by
  obtain ⟨t, ht⟩ := foldl_processEntry_eq_append cat es ws
  rw [ht]
  exact List.mem_append_left _ hc

theorem processEntry_filters (cat : String) (ws : List Candidate) (e : Entry)
    (hws : ∀ c ∈ ws, passesFilters c = true) :
    ∀ c ∈ processEntry cat ws e, passesFilters c = true := by
  intro c hc
  rcases processEntry_eq_self_or_append cat ws e with h | ⟨h, _, _, hpass, _, heq⟩
  · rw [h] at hc; exact hws c hc
  · rw [heq] at hc
    rcases List.mem_append.mp hc with h3 | h3
    · exact hws c h3
    · rw [List.mem_singleton] at h3
      subst h3
      exact hpass

theorem foldl_processEntry_filters (cat : String) (es : List Entry) :
    ∀ ws, (∀ c ∈ ws, passesFilters c = true) →
      ∀ c ∈ List.foldl (processEntry cat) ws es, passesFilters c = true := by
  induction es with
  | nil => intro ws hws; simpa using hws
  | cons e rest ih =>
      intro ws hws
      exact ih _ (processEntry_filters cat ws e hws)

theorem processEntry_nodup (cat : String) (ws : List Candidate) (e : Entry)
    (h : ws.Nodup) : (processEntry cat ws e).Nodup := by
  rcases processEntry_eq_self_or_append cat ws e with heq | ⟨hr, _, _, _, hin, heq⟩
  · rw [heq]; exact h
  · rw [heq, List.nodup_append]
    refine ⟨h, List.nodup_singleton _, ?_⟩
    intro a ha hb
    rw [List.mem_singleton] at hb
    subst hb
    exact hin ha

theorem foldl_processEntry_nodup (cat : String) (es : List Entry) :
    ∀ ws, ws.Nodup → (List.foldl (processEntry cat) ws es).Nodup := by
  induction es with
  | nil => intro ws h; simpa using h
  | cons e rest ih =>
      intro ws h
      exact ih _ (processEntry_nodup cat ws e h)

theorem mem_processEntry_self (cat : String) (ws : List Candidate) (e : Entry) (h : String)
    (hh : e.href = some h) (h1 : isWorkflowHref h = true)
    (hpass : passesFilters (candidateOf cat ws.length h e) = true) :
    candidateOf cat ws.length h e ∈ processEntry cat ws e := by
  by_cases hin : candidateOf cat ws.length h e ∈ ws
  · obtain ⟨t, ht⟩ := processEntry_eq_append cat ws e
    rw [ht]
    exact List.mem_append_left _ hin
  · have heq : processEntry cat ws e = ws ++ [candidateOf cat ws.length h e] := by
      simp [processEntry, hh, h1, hpass, hin]
    rw [heq]
    exact List.mem_append_right _ (List.mem_singleton.mpr rfl)

theorem passesFilters_iff (c : Candidate) :
    passesFilters c = true ↔
      (MIN_NODES ≤ c.nodes ∧ c.has_price = false ∧ c.is_free = true) := by
  simp only [passesFilters, Bool.and_eq_true, decide_eq_true_eq, Bool.not_eq_true', MIN_NODES]
  constructor
  · rintro ⟨⟨⟨_, h6⟩, hp⟩, hf⟩
    exact ⟨h6, hp, hf⟩
  · rintro ⟨h6, hp, hf⟩
    exact ⟨⟨⟨by omega, h6⟩, hp⟩, hf⟩

/-- C1: a listing entry processed by the Page Extractor has its candidate
record among the returned accepted items exactly when the computed
node count is at least MIN_NODES, has_price is false and is_free is true
(the nodes_count > 0 conjunct of the source is implied by MIN_NODES = 6,
and the dedup conjunct never removes a record from the returned list); in
particular an entry with node count 0, or with a price, or without a Free
label, is never emitted. -/
theorem C1_accept_iff (cat : String) (l₁ l₂ : List Entry) (e : Entry) (h : String)
    (hhref : e.href = some h) (hfilter : isWorkflowHref h = true) :
    candidateOf cat (extract_workflow_links cat l₁).length h e
        ∈ extract_workflow_links cat (l₁ ++ e :: l₂)
      ↔ (MIN_NODES ≤ (candidateOf cat (extract_workflow_links cat l₁).length h e).nodes
          ∧ (candidateOf cat (extract_workflow_links cat l₁).length h e).has_price = false
          ∧ (candidateOf cat (extract_workflow_links cat l₁).length h e).is_free = true) := by
  set ws := extract_workflow_links cat l₁ with hws
  set c := candidateOf cat ws.length h e with hc
  constructor
  · intro hmem
    have hall : ∀ x ∈ extract_workflow_links cat (l₁ ++ e :: l₂), passesFilters x = true := by
      unfold extract_workflow_links
      exact foldl_processEntry_filters cat _ [] (by simp)
    exact (passesFilters_iff c).mp (hall c hmem)
  · intro hp
    have hpass : passesFilters c = true := (passesFilters_iff c).mpr hp
    have hext : extract_workflow_links cat (l₁ ++ e :: l₂)
        = List.foldl (processEntry cat) (processEntry cat ws e) l₂ := by
      unfold extract_workflow_links
      rw [List.foldl_append, List.foldl_cons]
      rfl
    rw [hext]
    apply mem_foldl_processEntry
    rw [hc]
    exact mem_processEntry_self cat ws e h hhref hfilter (by rw [← hc]; exact hpass)

/-- Witness for C1: a concrete entry with six visible nodes, no price text
and a Free label is accepted, and the instantiated equivalence holds. -/
theorem C1_accept_iff_witness :
    (entryC1.href = some ("/workflows/123-my-flow")
      ∧ isWorkflowHref ("/workflows/123-my-flow") = true)
    ∧ (candidateOf ("Sales") (extract_workflow_links ("Sales") []).length
          ("/workflows/123-my-flow") entryC1
        ∈ extract_workflow_links ("Sales") ([] ++ entryC1 :: [])
      ↔ (MIN_NODES ≤ (candidateOf ("Sales") (extract_workflow_links ("Sales") []).length
            ("/workflows/123-my-flow") entryC1).nodes
          ∧ (candidateOf ("Sales") (extract_workflow_links ("Sales") []).length
              ("/workflows/123-my-flow") entryC1).has_price = false
          ∧ (candidateOf ("Sales") (extract_workflow_links ("Sales") []).length
              ("/workflows/123-my-flow") entryC1).is_free = true)) :=
  ⟨⟨rfl, by decide⟩,
   C1_accept_iff ("Sales") [] [] entryC1 ("/workflows/123-my-flow") rfl (by decide)⟩

/-- C3 counterexample: an entry whose node list is present (tier 1
available) but empty, with a +7 pattern in its full text: the computed
node count is 7, not visible_count + overflow_N = 0, and the tier-1 value
0 is strictly below the tier-2 value 7. -/
theorem C3_counterexample :
    entryC3cex.nodeList = some ⟨0, []⟩
    ∧ tier1Value entryC3cex = 0
    ∧ tier2Value entryC3cex = 7
    ∧ nodesCount entryC3cex = 7
    ∧ ¬(nodesCount entryC3cex
          = (0 : Nat) + overflowOfSpans ([] : List String))
    ∧ ¬(tier2Value entryC3cex ≤ tier1Value entryC3cex) := by decide

/-- C3 (amended): when tier 1 is available and yields a nonzero value, the
computed node count equals visible_count + overflow_N; and that value is at
least the tier-2 value whenever the first +N of the full text does not
exceed the structural overflow indicator (in particular when it is that
same indicator). -/
theorem C3_tier1_formula (e : Entry) (nl : NodeList) (h : e.nodeList = some nl)
    (h1 : 0 < nl.visibleCount + overflowOfSpans nl.spanTexts) :
    nodesCount e = nl.visibleCount + overflowOfSpans nl.spanTexts
    ∧ (tier2Value e ≤ overflowOfSpans nl.spanTexts → tier2Value e ≤ nodesCount e) := by
  have ht1 : tier1Value e = nl.visibleCount + overflowOfSpans nl.spanTexts := by
    simp [tier1Value, h]
  have hne : ¬(tier1Value e = 0) := by omega
  have hnc : nodesCount e = tier1Value e := by
    simp [nodesCount, hne]
  refine ⟨by rw [hnc, ht1], fun hle => by rw [hnc, ht1]; omega⟩

/-- Witness for C3: five visible nodes and a +3 overflow span whose +3 also
appears first in the full text give node count 8 and tier-2 value 3 ≤ 8. -/
theorem C3_tier1_formula_witness :
    (entryC3wit.nodeList = some ⟨5, ["+3"]⟩
      ∧ 0 < (5 : Nat) + overflowOfSpans (["+3"]))
    ∧ (nodesCount entryC3wit = (5 : Nat) + overflowOfSpans (["+3"])
        ∧ (tier2Value entryC3wit ≤ overflowOfSpans (["+3"])
            → tier2Value entryC3wit ≤ nodesCount entryC3wit)) :=
  ⟨⟨rfl, by decide⟩, C3_tier1_formula entryC3wit ⟨5, ["+3"]⟩ rfl (by decide)⟩

/-- C7 counterexample: two card elements for the same workflow URL with
different titles both pass the filters; the call returns two items sharing
the slug 123-abc, so the output is not deduplicated by slug. -/
theorem C7_counterexample :
    ((extract_workflow_links ("X") [entryC7a, entryC7b]).map (fun c => c.slug))
        = [("123-abc"), ("123-abc")]
    ∧ ¬((extract_workflow_links ("X") [entryC7a, entryC7b]).map (fun c => c.slug)).Nodup := by
  decide

/-- C7 (amended): within one call the returned accepted items are
deduplicated by the whole candidate record, not by slug: no two returned
items are equal records (items sharing a slug but differing elsewhere may
both appear), and encounter order is preserved in that processing any
further entries only extends the already returned list. -/
theorem C7_dedup_order (cat : String) (l₁ l₂ : List Entry) :
    (extract_workflow_links cat (l₁ ++ l₂)).Nodup
    ∧ extract_workflow_links cat l₁ <+: extract_workflow_links cat (l₁ ++ l₂) := by
  constructor
  · exact foldl_processEntry_nodup cat (l₁ ++ l₂) [] List.nodup_nil
  · unfold extract_workflow_links
    rw [List.foldl_append]
    obtain ⟨t, ht⟩ := foldl_processEntry_eq_append cat l₂ (List.foldl (processEntry cat) [] l₁)
    exact ⟨t, ht.symm⟩

theorem mkdirp_files (fs : FS) (d : String) : (fs.mkdirp d).files = fs.files := by
  unfold FS.mkdirp
  split <;> rfl

theorem mkdirp_fileExists (fs : FS) (d p : String) :
    (fs.mkdirp d).fileExists p = fs.fileExists p := by
  unfold FS.fileExists
  rw [mkdirp_files]

theorem fileExists_iff (fs : FS) (p : String) :
    fs.fileExists p = true ↔ ∃ x ∈ fs.files, x.1 = p := by
  simp [FS.fileExists]

theorem fileExists_writeFile_self (fs : FS) (p c : String) :
    (fs.writeFile p c).fileExists p = true := by
  rw [fileExists_iff]
  exact ⟨(p, c), by simp [FS.writeFile], rfl⟩

theorem fileExists_writeFile_of (fs : FS) (p c q : String) (h : fs.fileExists q = true) :
    (fs.writeFile p c).fileExists q = true := by
  rw [fileExists_iff] at h ⊢
  obtain ⟨x, hx, hq⟩ := h
  by_cases hpq : q = p
  · exact ⟨(p, c), by simp [FS.writeFile], by simp [hpq]⟩
  · refine ⟨x, ?_, hq⟩
    simp only [FS.writeFile, List.mem_cons, List.mem_filter]
    right
    refine ⟨hx, ?_⟩
    simp [hq, hpq]

/-- Case analysis on one protocol run: the idempotence short circuit, a
failure that leaves the filesystem as given, or a successful parse-и-write
of the clipboard payload. -/
theorem dlSteps_spec (env : ItemEnv) (fs : FS) (w : Candidate) :
    (dlSteps env fs w = ⟨true, fs, 0⟩ ∧ fs.fileExists (targetPath w) = true)
    ∨ dlSteps env fs w = ⟨false, fs, 1⟩
    ∨ (∃ txt v, env.clipboard = some txt ∧ json_loads txt = some v ∧
        dlSteps env fs w = ⟨true, fs.writeFile (targetPath w) (json_dumps v), 1⟩) := by
  unfold dlSteps
  by_cases h1 : fs.fileExists (targetPath w) = true
  · left; exact ⟨by rw [if_pos h1], h1⟩
  · rw [if_neg h1]
    by_cases h2 : env.gotoRaises = true
    · right; left; rw [if_pos h2]
    · rw [if_neg h2]
      by_cases h3 : containsSub env.landedUrl ("n8n.io") = false
      · right; left; rw [if_pos h3]
      · rw [if_neg h3]
        by_cases h4 : env.useButton = false
        · right; left; rw [if_pos h4]
        · rw [if_neg h4]
          by_cases h5 : env.copyButton = false
          · right; left; rw [if_pos h5]
          · rw [if_neg h5]
            cases hclip : env.clipboard with
            | none => right; left; rfl
            | some txt =>
                simp only [dlClipboard]
                by_cases h6 : txt = ""
                · right; left; rw [if_pos h6]
                · rw [if_neg h6]
                  cases hload : json_loads txt with
                  | none => right; left; rfl
                  | some v => exact Or.inr (Or.inr ⟨txt, v, rfl, hload, rfl⟩)

theorem dlSteps_preserves (env : ItemEnv) (fs : FS) (w : Candidate) (p : String)
    (h : fs.fileExists p = true) : (dlSteps env fs w).fs.fileExists p = true := by
  rcases dlSteps_spec env fs w with ⟨heq, _⟩ | heq | ⟨txt, v, _, _, heq⟩
  · rw [heq]; exact h
  · rw [heq]; exact h
  · rw [heq]; exact fileExists_writeFile_of _ _ _ _ h

theorem dl_preserves_file (env : ItemEnv) (fs : FS) (w : Candidate) (p : String)
    (h : fs.fileExists p = true) :
    (download_workflow_via_clipboard env fs w).fs.fileExists p = true := by
  unfold download_workflow_via_clipboard
  apply dlSteps_preserves
  rw [mkdirp_fileExists]
  exact h

theorem dl_success_file (env : ItemEnv) (fs : FS) (w : Candidate)
    (h : (download_workflow_via_clipboard env fs w).success = true) :
    (download_workflow_via_clipboard env fs w).fs.fileExists (targetPath w) = true := by
  unfold download_workflow_via_clipboard at h ⊢
  rcases dlSteps_spec env (fs.mkdirp (targetDir w)) w with ⟨heq, hex⟩ | heq | ⟨txt, v, _, _, heq⟩
  · rw [heq]; exact hex
  · rw [heq] at h; simp at h
  · rw [heq]; exact fileExists_writeFile_self _ _ _

theorem dl_exists_short_circuit (env : ItemEnv) (fs : FS) (w : Candidate)
    (h : fs.fileExists (targetPath w) = true) :
    download_workflow_via_clipboard env fs w = ⟨true, fs.mkdirp (targetDir w), 0⟩ := by
  unfold download_workflow_via_clipboard dlSteps
  rw [if_pos (by rw [mkdirp_fileExists]; exact h)]

theorem runItems_preserves (envs : Nat → ItemEnv) (n : Nat) :
    ∀ (ws : List Candidate) (i : Nat) (fs : FS) (p : String),
      fs.fileExists p = true → ((runItems envs n ws i fs).2).fileExists p = true := by
  intro ws
  induction ws with
  | nil => intro i fs p h; exact h
  | cons w rest ih =>
      intro i fs p h
      exact ih (i + 1) _ p (dl_preserves_file _ _ _ _ h)

theorem runItems_success_exists (envs : Nat → ItemEnv) (n : Nat) :
    ∀ (ws : List Candidate) (i : Nat) (fs : FS) (k : Nat) (ev : Ev),
      ((runItems envs n ws i fs).1)[k]? = some ev → ev.success = true →
      ∃ w, ws[k]? = some w ∧ ((runItems envs n ws i fs).2).fileExists (targetPath w) = true := by
  intro ws
  induction ws with
  | nil => intro i fs k ev h _; simp [runItems] at h
  | cons w rest ih =>
      intro i fs k ev h hsucc
      cases k with
      | zero =>
          simp only [runItems, List.getElem?_cons_zero, Option.some.injEq] at h
          subst h
          refine ⟨w, by simp, ?_⟩
          exact runItems_preserves envs n rest (i + 1) _ _ (dl_success_file _ _ _ hsucc)
      | succ k =>
          simp only [runItems, List.getElem?_cons_succ] at h
          obtain ⟨w', hw', hex⟩ := ih (i + 1) _ k ev h hsucc
          exact ⟨w', by simpa using hw', hex⟩

theorem runItems_exists_navzero (envs : Nat → ItemEnv) (n : Nat) :
    ∀ (ws : List Candidate) (i : Nat) (fs : FS) (k : Nat) (w : Candidate),
      ws[k]? = some w → fs.fileExists (targetPath w) = true →
      ∃ ev, ((runItems envs n ws i fs).1)[k]? = some ev ∧ ev.navs = 0 ∧ ev.success = true := by
  intro ws
  induction ws with
  | nil => intro i fs k w h _; simp at h
  | cons w0 rest ih =>
      intro i fs k w h hex
      cases k with
      | zero =>
          simp only [List.getElem?_cons_zero, Option.some.injEq] at h
          subst h
          refine ⟨⟨i, i % n, true, 0⟩, ?_, rfl, rfl⟩
          have hdl := dl_exists_short_circuit (envs i) fs w0 hex
          simp [runItems, hdl]
      | succ k =>
          simp only [List.getElem?_cons_succ] at h
          have hex2 : ((download_workflow_via_clipboard (envs i) fs w0).fs).fileExists
              (targetPath w) = true := dl_preserves_file _ _ _ _ hex
          obtain ⟨ev, hev, hn, hs⟩ := ih (i + 1) _ k w h hex2
          exact ⟨ev, by simpa [runItems] using hev, hn, hs⟩

/-- C2: a call on an item whose target file already exists returns success
with zero navigation calls; consequently when the orchestrator runs twice
over the same batch with the filesystem carried over unchanged, any item
downloaded successfully in the first run is not fetched again in the
second (its second event shows zero navigations), the file-existence short
circuit supplying the idempotence. -/
theorem C2_idempotent :
    (∀ (env : ItemEnv) (fs : FS) (w : Candidate),
        fs.fileExists (targetPath w) = true →
        (download_workflow_via_clipboard env fs w).success = true
        ∧ (download_workflow_via_clipboard env fs w).navs = 0)
    ∧ (∀ (envs : Nat → ItemEnv) (fs : FS) (ws : List Candidate) (i : Nat) (ev1 ev2 : Ev),
        ((download_batch_immediately envs fs ws).events)[i]? = some ev1 →
        ((download_batch_immediately envs
            (download_batch_immediately envs fs ws).fs ws).events)[i]? = some ev2 →
        ev1.success = true →
        ev2.navs = 0 ∧ ev2.success = true) := by
  constructor
  · intro env fs w h
    rw [dl_exists_short_circuit env fs w h]
    exact ⟨rfl, rfl⟩
  · intro envs fs ws i ev1 ev2 h1 h2 hs
    by_cases hne : ws.isEmpty = true
    · rw [show (download_batch_immediately envs fs ws) = ⟨0, [], fs⟩ by
        simp [download_batch_immediately, hne]] at h1
      simp at h1
    · have h1' : ((runItems envs (min 3 ws.length) ws 0 fs).1)[i]? = some ev1 := by
        simpa [download_batch_immediately, hne] using h1
      have h2' : ((runItems envs (min 3 ws.length) ws 0
          ((runItems envs (min 3 ws.length) ws 0 fs).2)).1)[i]? = some ev2 := by
        simpa [download_batch_immediately, hne] using h2
      obtain ⟨w, hw, hex⟩ := runItems_success_exists envs _ ws 0 fs i ev1 h1' hs
      obtain ⟨ev, hev, hn0, hsucc⟩ := runItems_exists_navzero envs _ ws 0 _ i w hw hex
      rw [hev] at h2'
      obtain rfl := Option.some.inj h2'
      exact ⟨hn0, hsucc⟩

/-- Witness for C2: with the target file of wfC2 present, the call succeeds
without navigating. -/
theorem C2_idempotent_witness :
    fsC2.fileExists (targetPath wfC2) = true
    ∧ (download_workflow_via_clipboard envIdle fsC2 wfC2).success = true
    ∧ (download_workflow_via_clipboard envIdle fsC2 wfC2).navs = 0 :=
  ⟨by decide, (C2_idempotent.1 envIdle fsC2 wfC2 (by decide)).1,
   (C2_idempotent.1 envIdle fsC2 wfC2 (by decide)).2⟩

theorem runItems_map_assignment (envs : Nat → ItemEnv) (n : Nat) :
    ∀ (ws : List Candidate) (i : Nat) (fs : FS),
      (runItems envs n ws i fs).1.map (fun ev => (ev.item, ev.tab))
        = (List.range' i ws.length).map (fun k => (k, k % n)) := by
  intro ws
  induction ws with
  | nil => intro i fs; rfl
  | cons w rest ih =>
      intro i fs
      simp only [runItems, List.length_cons, List.range'_succ, List.map_cons]
      exact congrArg _ (ih (i + 1) _)

/-- C6: a non-empty batch of n items opens exactly min(3, n) tabs and the
event sequence assigns item i to tab i mod min(3, n) in input order, for
every page-behavior environment — in particular one item failing at any
step never prevents another item of the batch from being attempted. -/
theorem C6_round_robin (envs : Nat → ItemEnv) (fs : FS) (ws : List Candidate)
    (hne : ws ≠ []) :
    (download_batch_immediately envs fs ws).tabsOpened = min 3 ws.length
    ∧ (download_batch_immediately envs fs ws).events.map (fun ev => (ev.item, ev.tab))
        = (List.range ws.length).map (fun k => (k, k % min 3 ws.length)) := by
  have hno : ¬(ws.isEmpty = true) := by simpa using hne
  constructor
  · simp [download_batch_immediately, hno]
  · have hmap := runItems_map_assignment envs (min 3 ws.length) ws 0 fs
    have hbatch : (download_batch_immediately envs fs ws).events
        = (runItems envs (min 3 ws.length) ws 0 fs).1 := by
      simp [download_batch_immediately, hno]
    rw [hbatch, hmap, List.range_eq_range']

/-- Witness for C6: the batch of seven items gets tab assignment
[0,1,2,0,1,2,0]; item 3 fails at navigation while all other six items are
attempted and succeed. -/
theorem C6_round_robin_witness :
    wsC6 ≠ []
    ∧ (download_batch_immediately envsC6 fsBase wsC6).tabsOpened = min 3 wsC6.length
    ∧ (download_batch_immediately envsC6 fsBase wsC6).events.map (fun ev => (ev.item, ev.tab))
        = [(0, 0), (1, 1), (2, 2), (3, 0), (4, 1), (5, 2), (6, 0)]
    ∧ (download_batch_immediately envsC6 fsBase wsC6).events.map (fun ev => ev.success)
        = [true, true, true, false, true, true, true] :=
  ⟨by decide, (C6_round_robin envsC6 fsBase wsC6 (by decide)).1,
   by rw [(C6_round_robin envsC6 fsBase wsC6 (by decide)).2]; decide,
   by decide⟩

/-- C10 counterexample: a failing download (navigation lands off-host) for
an item of a category with no directory yet still changes the filesystem:
the category directory is created by the mkdir preceding the existence
check, refuting "the filesystem is unchanged by the failed call". -/
theorem C10_counterexample :
    (download_workflow_via_clipboard envC10fail fsBase wfC10).success = false
    ∧ ¬((download_workflow_via_clipboard envC10fail fsBase wfC10).fs = fsBase) := by
  decide

/-- C10 (amended): for an item whose target file does not exist, a failed
call creates no file (the files component is unchanged and the target
still absent, though the category directory may have been created), and a
file is written exactly when the clipboard text parses as JSON, with
content the serialization of the parsed value. -/
theorem C10_failure_no_write (env : ItemEnv) (fs : FS) (w : Candidate)
    (h : fs.fileExists (targetPath w) = false) :
    ((download_workflow_via_clipboard env fs w).success = false →
        (download_workflow_via_clipboard env fs w).fs.files = fs.files
        ∧ (download_workflow_via_clipboard env fs w).fs.fileExists (targetPath w) = false)
    ∧ ((download_workflow_via_clipboard env fs w).success = true →
        ∃ txt v, env.clipboard = some txt ∧ json_loads txt = some v ∧
          (download_workflow_via_clipboard env fs w).fs
            = (fs.mkdirp (targetDir w)).writeFile (targetPath w) (json_dumps v)) := by
  unfold download_workflow_via_clipboard
  rcases dlSteps_spec env (fs.mkdirp (targetDir w)) w
    with ⟨heq, hex⟩ | heq | ⟨txt, v, hclip, hload, heq⟩
  · rw [mkdirp_fileExists] at hex
    rw [h] at hex
    simp at hex
  · rw [heq]
    constructor
    · intro _
      exact ⟨mkdirp_files fs _, by rw [mkdirp_fileExists]; exact h⟩
    · intro hs
      simp at hs
  · rw [heq]
    constructor
    · intro hs
      simp at hs
    · intro _
      exact ⟨txt, v, hclip, hload, rfl⟩

/-- Witness for C10: a successful protocol run on a clipboard holding the
JSON number 123 writes exactly its serialization to the target path. -/
theorem C10_failure_no_write_witness :
    fsBase.fileExists (targetPath wfC10) = false
    ∧ ((download_workflow_via_clipboard envC10ok fsBase wfC10).success = true →
        ∃ txt v, envC10ok.clipboard = some txt ∧ json_loads txt = some v ∧
          (download_workflow_via_clipboard envC10ok fsBase wfC10).fs
            = (fsBase.mkdirp (targetDir wfC10)).writeFile (targetPath wfC10) (json_dumps v)) :=
  ⟨by decide, (C10_failure_no_write envC10ok fsBase wfC10 (by decide)).2⟩

theorem addWorkflows_fields : ∀ (ws : List Candidate) (s : ScrapeState),
    (addWorkflows s ws).flushes = s.flushes
    ∧ (addWorkflows s ws).pageStartPendingSizes = s.pageStartPendingSizes
    ∧ (addWorkflows s ws).pagesLoaded = s.pagesLoaded := by
  intro ws
  induction ws with
  | nil => intro s; exact ⟨rfl, rfl, rfl⟩
  | cons w rest ih =>
      intro s
      simp only [addWorkflows]
      split
      · split
        · exact ⟨rfl, rfl, rfl⟩
        · exact ih _
      · exact ih s

theorem addWorkflows_inv : ∀ (ws : List Candidate) (s : ScrapeState),
    ScrapeInv s → ScrapeInv (addWorkflows s ws) := by
  intro ws
  induction ws with
  | nil => intro s h; exact h
  | cons w rest ih =>
      intro s h
      simp only [addWorkflows]
      split
      · rename_i hcond
        have hinv1 : ScrapeInv
            { s with processedSlugs := w.slug :: s.processedSlugs
                   , allWorkflows := s.allWorkflows ++ [w]
                   , pending := s.pending ++ [w] } := by
          obtain ⟨h1, h2, h3, h4, h5, h6⟩ := h
          refine ⟨?_, ?_, ?_, ?_, h5, h6⟩
          · show s.flushes.flatten ++ (s.pending ++ [w]) = s.allWorkflows ++ [w]
            rw [← List.append_assoc, h1]
          · show ((s.allWorkflows ++ [w]).map (fun c => c.slug)).Nodup
            rw [List.map_append, List.nodup_append]
            refine ⟨h2, by simp, ?_⟩
            intro a ha hb
            simp only [List.map_cons, List.map_nil, List.mem_singleton] at hb
            subst hb
            obtain ⟨c, hc, hcs⟩ := List.mem_map.mp ha
            exact hcond.1 (hcs ▸ h3 c hc)
          · intro c hc
            rcases List.mem_append.mp hc with hc | hc
            · exact List.mem_cons_of_mem _ (h3 c hc)
            · rw [List.mem_singleton] at hc
              subst hc
              exact List.mem_cons_self _ _
          · show (s.allWorkflows ++ [w]).length ≤ MAX_WORKFLOWS_PER_SUBCATEGORY
            rw [List.length_append]
            have := hcond.2
            simp only [List.length_singleton]
            omega
        split
        · exact hinv1
        · exact ih _ hinv1
      · exact ih s h

theorem scrapeIterStart_inv (s : ScrapeState) (h : ScrapeInv s)
    (hp : s.pending.length < DOWNLOAD_BATCH_SIZE) : ScrapeInv (scrapeIterStart s) := by
  obtain ⟨h1, h2, h3, h4, h5, h6⟩ := h
  refine ⟨h1, h2, h3, h4, h5, ?_⟩
  intro m hm
  rcases List.mem_append.mp hm with hm | hm
  · exact h6 m hm
  · rw [List.mem_singleton] at hm
    subst hm
    exact hp

theorem scrapeFlush_inv (s : ScrapeState) (h : ScrapeInv s) : ScrapeInv (scrapeFlush s) := by
  unfold scrapeFlush
  split
  · rename_i hge
    obtain ⟨h1, h2, h3, h4, h5, h6⟩ := h
    refine ⟨?_, h2, h3, h4, ?_, h6⟩
    · show (s.flushes ++ [s.pending]).flatten ++ [] = s.allWorkflows
      rw [List.append_nil, List.flatten_append, ← h1]
      simp
    · intro b hb
      rcases List.mem_append.mp hb with hb | hb
      · exact h5 b hb
      · rw [List.mem_singleton] at hb
        subst hb
        exact hge
  · exact h

theorem scrapeFlush_pending (s : ScrapeState) :
    (scrapeFlush s).pending.length < DOWNLOAD_BATCH_SIZE := by
  unfold scrapeFlush
  split
  · simp [DOWNLOAD_BATCH_SIZE]
  · rename_i hlt
    omega

theorem scrapeFlush_pagesLoaded (s : ScrapeState) :
    (scrapeFlush s).pagesLoaded = s.pagesLoaded := by
  unfold scrapeFlush
  split <;> rfl

theorem scrapeInv_init : ScrapeInv initScrape :=
  ⟨by simp [initScrape], List.nodup_nil, by simp [initScrape], by simp [initScrape],
   by simp [initScrape], by simp [initScrape]⟩

theorem scrapeLoop_inv : ∀ (f : Nat) (env : ScrapeEnv) (cat : String) (s : ScrapeState),
    ScrapeInv s → s.pending.length < DOWNLOAD_BATCH_SIZE →
    ScrapeInv (scrapeLoop env cat f s) := by
  intro f
  induction f with
  | zero => intro env cat s h _; exact h
  | succ f ih =>
      intro env cat s h hp
      simp only [scrapeLoop]
      have hinv2 : ScrapeInv (addWorkflows (scrapeIterStart s)
          (extract_workflow_links cat (env.pages (scrapeIterStart s).pagesLoaded))) :=
        addWorkflows_inv _ _ (scrapeIterStart_inv s h hp)
      split
      · exact hinv2
      · have hinv3 := scrapeFlush_inv _ hinv2
        split
        · exact hinv3
        · split
          · exact hinv3
          · exact ih env cat _ hinv3 (scrapeFlush_pending _)

theorem scrapeLoop_pages_le : ∀ (f : Nat) (env : ScrapeEnv) (cat : String) (s : ScrapeState),
    s.pagesLoaded ≤ 30 → (scrapeLoop env cat f s).pagesLoaded ≤ 31 := by
  intro f
  induction f with
  | zero => intro env cat s h; simp only [scrapeLoop]; omega
  | succ f ih =>
      intro env cat s h
      simp only [scrapeLoop]
      set s2 := addWorkflows (scrapeIterStart s)
          (extract_workflow_links cat (env.pages (scrapeIterStart s).pagesLoaded)) with hs2
      have hpg2 : s2.pagesLoaded = s.pagesLoaded + 1 := by
        rw [hs2]
        exact (addWorkflows_fields _ _).2.2
      split
      · omega
      · set s3 := scrapeFlush s2 with hs3
        have hpg3 : s3.pagesLoaded = s.pagesLoaded + 1 := by
          rw [hs3, scrapeFlush_pagesLoaded]
          exact hpg2
        split
        · omega
        · split
          · omega
          · exact ih env cat s3 (by omega)

theorem scrapeLoop_fuel_indep : ∀ (f g : Nat) (env : ScrapeEnv) (cat : String)
    (s : ScrapeState), s.pagesLoaded ≤ 30 → 31 ≤ s.pagesLoaded + f →
    31 ≤ s.pagesLoaded + g → scrapeLoop env cat f s = scrapeLoop env cat g s := by
  intro f
  induction f with
  | zero => intro g env cat s h1 h2 _; omega
  | succ f ih =>
      intro g env cat s h1 h2 h3
      cases g with
      | zero => omega
      | succ g =>
          simp only [scrapeLoop]
          set s2 := addWorkflows (scrapeIterStart s)
              (extract_workflow_links cat (env.pages (scrapeIterStart s).pagesLoaded)) with hs2
          have hpg2 : s2.pagesLoaded = s.pagesLoaded + 1 := by
            rw [hs2]
            exact (addWorkflows_fields _ _).2.2
          by_cases hcap : MAX_WORKFLOWS_PER_SUBCATEGORY ≤ s2.allWorkflows.length
          · rw [if_pos hcap, if_pos hcap]
          · rw [if_neg hcap, if_neg hcap]
            set s3 := scrapeFlush s2 with hs3
            have hpg3 : s3.pagesLoaded = s.pagesLoaded + 1 := by
              rw [hs3, scrapeFlush_pagesLoaded]
              exact hpg2
            by_cases hlm : env.loadMore s3.pagesLoaded = false
            · rw [if_pos hlm, if_pos hlm]
            · rw [if_neg hlm, if_neg hlm]
              by_cases hpg : 30 < s3.pagesLoaded
              · rw [if_pos hpg, if_pos hpg]
              · rw [if_neg hpg, if_neg hpg]
                exact ih g env cat s3 (by omega) (by omega) (by omega)

/-- C8: after one (sub)category traversal the accumulated accepted-item
list has pairwise-distinct slugs (each page extraction contributes only
items with slugs outside the local processed_slugs set) and its length
never exceeds MAX_WORKFLOWS_PER_SUBCATEGORY. -/
theorem C8_distinct_slugs_and_cap (env : ScrapeEnv) (cat : String) :
    ((scrape_category_workflows env cat).allWorkflows.map (fun c => c.slug)).Nodup
    ∧ (scrape_category_workflows env cat).allWorkflows.length
        ≤ MAX_WORKFLOWS_PER_SUBCATEGORY := by
  have hinv := scrapeLoop_inv 31 env cat initScrape scrapeInv_init
    (by simp [initScrape, DOWNLOAD_BATCH_SIZE])
  unfold scrape_category_workflows scrapeFinal
  split
  · exact ⟨hinv.2.1, hinv.2.2.2.1⟩
  · exact ⟨hinv.2.1, hinv.2.2.2.1⟩

/-- C4: over one (sub)category traversal, the batches handed to the
Download Orchestrator concatenate exactly to the accepted-item list (so
their sizes sum to the accepted-item count); every mid-loop flush carries
at least DOWNLOAD_BATCH_SIZE items and clears the buffer (witnessed by the
disjoint concatenation), a fresh page iteration never starts with a
buffer at or above DOWNLOAD_BATCH_SIZE, any non-empty residue is flushed
once after the loop as the final batch, and no empty batch is ever
flushed. -/
theorem C4_flush_accounting (env : ScrapeEnv) (cat : String) :
    ((scrape_category_workflows env cat).flushes.map List.length).sum
        = (scrape_category_workflows env cat).allWorkflows.length
    ∧ (scrape_category_workflows env cat).flushes.flatten
        = (scrape_category_workflows env cat).allWorkflows
    ∧ (∀ b ∈ (scrape_category_workflows env cat).flushes.dropLast,
        DOWNLOAD_BATCH_SIZE ≤ b.length)
    ∧ (∀ b ∈ (scrape_category_workflows env cat).flushes, b ≠ [])
    ∧ (∀ m ∈ (scrape_category_workflows env cat).pageStartPendingSizes,
        m < DOWNLOAD_BATCH_SIZE) := by
  obtain ⟨h1, h2, h3, h4, h5, h6⟩ := scrapeLoop_inv 31 env cat initScrape scrapeInv_init
    (by simp [initScrape, DOWNLOAD_BATCH_SIZE])
  by_cases hemp : (scrapeLoop env cat 31 initScrape).pending.isEmpty = true
  · have hpend : (scrapeLoop env cat 31 initScrape).pending = [] := List.isEmpty_iff.mp hemp
    have hsc : scrape_category_workflows env cat = scrapeLoop env cat 31 initScrape := by
      unfold scrape_category_workflows scrapeFinal
      rw [if_pos hemp]
    rw [hsc]
    have hflat : (scrapeLoop env cat 31 initScrape).flushes.flatten
        = (scrapeLoop env cat 31 initScrape).allWorkflows := by
      rw [← h1, hpend, List.append_nil]
    refine ⟨?_, hflat, ?_, ?_, h6⟩
    · rw [← hflat]
      exact (List.length_flatten _).symm
    · intro b hb
      exact h5 b (List.dropLast_subset _ hb)
    · intro b hb
      have hlen := h5 b hb
      intro hbe
      subst hbe
      simp [DOWNLOAD_BATCH_SIZE] at hlen
  · have hpne : (scrapeLoop env cat 31 initScrape).pending ≠ [] := by
      intro hn
      exact hemp (by simp [hn])
    have hsc : scrape_category_workflows env cat
        = { scrapeLoop env cat 31 initScrape with
            flushes := (scrapeLoop env cat 31 initScrape).flushes
              ++ [(scrapeLoop env cat 31 initScrape).pending] } := by
      unfold scrape_category_workflows scrapeFinal
      rw [if_neg hemp]
    rw [hsc]
    have hflat : ((scrapeLoop env cat 31 initScrape).flushes
        ++ [(scrapeLoop env cat 31 initScrape).pending]).flatten
        = (scrapeLoop env cat 31 initScrape).allWorkflows := by
      rw [List.flatten_append, ← h1]
      simp
    refine ⟨?_, hflat, ?_, ?_, h6⟩
    · rw [← hflat]
      exact (List.length_flatten _).symm
    · intro b hb
      rw [List.dropLast_concat] at hb
      exact h5 b hb
    · intro b hb
      rcases List.mem_append.mp hb with hb | hb
      · have hlen := h5 b hb
        intro hbe
        subst hbe
        simp [DOWNLOAD_BATCH_SIZE] at hlen
      · rw [List.mem_singleton] at hb
        subst hb
        exact hpne

/-- C5 counterexample: with load more always available and no accepted
items, the loop performs exactly 31 page-load iterations — the hard bound
check pages_loaded greater than 30 only fires after the 31st iteration has
completed, exceeding the claimed bound of 30. -/
theorem C5_counterexample :
    (scrape_category_workflows envPagesForever ("X")).pagesLoaded = 31
    ∧ ¬((scrape_category_workflows envPagesForever ("X")).pagesLoaded ≤ 30) := by
  decide

/-- C5 (amended): the pagination loop always terminates — any fuel of at
least 31 iterations computes the same state as fuel 31 — performing at
most 31 page-load iterations; the terminal conditions are checked in
order: (a) accepted count reaching MAX_WORKFLOWS_PER_SUBCATEGORY, (b) the
load-more control absent or not interactable, (c) the hard bound
pages_loaded greater than 30, which fires only after iteration 31. -/
theorem C5_pages_bound (env : ScrapeEnv) (cat : String) :
    (scrape_category_workflows env cat).pagesLoaded ≤ 31
    ∧ (∀ f, 31 ≤ f →
        scrapeLoop env cat f initScrape = scrapeLoop env cat 31 initScrape) := by
  have h0 : initScrape.pagesLoaded = 0 := rfl
  constructor
  · have h := scrapeLoop_pages_le 31 env cat initScrape (by omega)
    unfold scrape_category_workflows scrapeFinal
    split
    · exact h
    · exact h
  · intro f hf
    exact scrapeLoop_fuel_indep f 31 env cat initScrape (by omega) (by omega) (by omega)

/-- Witness for C5 at a concrete environment: the loop result is within the
31-iteration bound and fuel 40 computes the same state as fuel 31. -/
theorem C5_pages_bound_witness :
    (scrape_category_workflows envPagesForever ("X")).pagesLoaded ≤ 31
    ∧ scrapeLoop envPagesForever ("X") 40 initScrape
        = scrapeLoop envPagesForever ("X") 31 initScrape :=
  ⟨(C5_pages_bound envPagesForever ("X")).1,
   (C5_pages_bound envPagesForever ("X")).2 40 (by omega)⟩

theorem runCategories_false_iff : ∀ (cats : List Category) (i : Nat) (env : RunEnv),
    (runCategories env cats i).1 = false
      ↔ ∃ j, env.raiseAtCategory = some j ∧ i ≤ j ∧ j < i + cats.length := by
  intro cats
  induction cats with
  | nil =>
      intro i env
      constructor
      · intro h
        simp [runCategories] at h
      · rintro ⟨j, _, h2, h3⟩
        simp at h3
        omega
  | cons c rest ih =>
      intro i env
      by_cases hr : env.raiseAtCategory = some i
      · have hred : (runCategories env (c :: rest) i).1 = false := by
          simp [runCategories, hr]
        refine Iff.intro (fun _ => ⟨i, hr, Nat.le_refl i, ?_⟩) (fun _ => hred)
        simp only [List.length_cons]
        omega
      · have hred : (runCategories env (c :: rest) i).1
            = (runCategories env rest (i + 1)).1 := by
          simp [runCategories, hr]
        rw [hred, ih (i + 1) env]
        constructor
        · rintro ⟨j, hj, hle, hlt⟩
          refine ⟨j, hj, by omega, ?_⟩
          simp only [List.length_cons]
          omega
        · rintro ⟨j, hj, hle, hlt⟩
          refine ⟨j, hj, ?_, ?_⟩
          · rcases Nat.lt_or_ge j (i + 1) with hl | hg
            · have hji : j = i := by omega
              subst hji
              exact absurd hj hr
            · exact hg
          · simp only [List.length_cons] at hlt
            omega

/-- C9 (amended): the final statistics report is printed exactly when
category discovery yields at least one category and no unexpected
exception escapes the traversal of the category list; a run that errors
out partway, and a run whose discovery produced no categories, exit
without attempting the report (only resource cleanup runs), so partial
progress is reported only on completed runs. -/
theorem C9_stats_iff (env : RunEnv) :
    (scrape_all_categories_comprehensively env).statsPrinted = true
      ↔ (discover_main_categories env.disc ≠ []
          ∧ ∀ j, env.raiseAtCategory = some j
              → (discover_main_categories env.disc).length ≤ j) := by
  by_cases hemp : (discover_main_categories env.disc).isEmpty = true
  · have hnil : discover_main_categories env.disc = [] := List.isEmpty_iff.mp hemp
    have hsp : (scrape_all_categories_comprehensively env).statsPrinted = false := by
      unfold scrape_all_categories_comprehensively
      rw [if_pos hemp]
    rw [hsp]
    simp [hnil]
  · have hne : discover_main_categories env.disc ≠ [] := by
      intro hn
      exact hemp (by simp [hn])
    have hsp : (scrape_all_categories_comprehensively env).statsPrinted
        = (runCategories env (discover_main_categories env.disc) 0).1 := by
      unfold scrape_all_categories_comprehensively
      rw [if_neg hemp]
    rw [hsp]
    constructor
    · intro h
      refine ⟨hne, fun j hj => ?_⟩
      by_contra hlt
      have hfalse : (runCategories env (discover_main_categories env.disc) 0).1 = false :=
        (runCategories_false_iff _ 0 env).mpr ⟨j, hj, Nat.zero_le j, by omega⟩
      rw [h] at hfalse
      simp at hfalse
    · rintro ⟨_, hall⟩
      by_cases hb : (runCategories env (discover_main_categories env.disc) 0).1 = false
      · obtain ⟨j, hj, _, hlt⟩ := (runCategories_false_iff _ 0 env).mp hb
        have := hall j hj
        omega
      · simpa using hb

/-- C9 counterexample: statistics are not always attempted. A run whose
discovery hits the outer exception handler yields no categories and the
function returns before the statistics phase; a run with live categories
that errors out while processing the second category likewise skips the
report, losing the partial progress of the first category. -/
theorem C9_counterexample :
    discover_main_categories runEnvRaised.disc = []
    ∧ (scrape_all_categories_comprehensively runEnvRaised).statsPrinted = false
    ∧ discover_main_categories runEnvPartial.disc ≠ []
    ∧ (scrape_all_categories_comprehensively runEnvPartial).statsPrinted = false := by
  decide

/-- Witness for C7: with the two same-slug entries split across the call,
the returned list is duplicate-free as a list of records and the one-entry
result is a prefix of the two-entry result. -/
theorem C7_dedup_order_witness :
    (extract_workflow_links ("X") ([entryC7a] ++ [entryC7b])).Nodup
    ∧ extract_workflow_links ("X") [entryC7a]
        <+: extract_workflow_links ("X") ([entryC7a] ++ [entryC7b]) :=
  C7_dedup_order ("X") [entryC7a] [entryC7b]

set_option maxRecDepth 8000 in
/-- Witness for C4 at a page of twenty accepted items: the one flushed
batch has size twenty, which is the accepted-item count. -/
theorem C4_flush_accounting_witness :
    ((scrape_category_workflows envC4 ("X")).flushes.map List.length).sum
        = (scrape_category_workflows envC4 ("X")).allWorkflows.length
    ∧ (scrape_category_workflows envC4 ("X")).flushes.map List.length = [20] :=
  ⟨(C4_flush_accounting envC4 ("X")).1, by decide⟩

/-- Witness for C8 at the same twenty-item page: distinct slugs, within
the cap. -/
theorem C8_distinct_slugs_and_cap_witness :
    ((scrape_category_workflows envC4 ("X")).allWorkflows.map (fun c => c.slug)).Nodup
    ∧ (scrape_category_workflows envC4 ("X")).allWorkflows.length
        ≤ MAX_WORKFLOWS_PER_SUBCATEGORY :=
  C8_distinct_slugs_and_cap envC4 ("X")

/-- Witness for C9: a completed run over the fallback categories does print
its statistics. -/
theorem C9_stats_iff_witness :
    (scrape_all_categories_comprehensively runEnvOk).statsPrinted = true :=
  (C9_stats_iff runEnvOk).mpr ⟨by decide, fun j hj => Option.noConfusion hj⟩
